import Mathlib

/-!
Verification of the image-caption extraction tool (`captions.py`).

The Python program parses a rendered wiki page (an HTML document) with
BeautifulSoup, selects every element whose `typeof` attribute marks it as an
image (`mw:Image` or `mw:Image/...`), and builds one record per image with
filename, position, type, dimensions, caption, alt text, link, and the
`from_template` / `from_commons` provenance flags.  The records are then
optionally filtered and rendered as pretty-printed text or CSV.

The development below embeds the HTML document as a tree of nodes, the
relevant BeautifulSoup operations (`select_one`, attribute lookup, `.string`,
`soupsieve.closest`), a JSON value model with a parser standing in for
`json.loads`, and the extraction / filtering / CSV-rendering pipeline,
following the Python source line by line.  Fallible Python code (uncaught
`KeyError`, `AttributeError`, `json` decode errors, the explicit
`raise Exception`) is embedded as `Except String`.
-/

/-- An HTML DOM node: an element with a tag name, an attribute list and
children, or a text node.  Attribute lookup takes the first binding, matching
how the HTML parser keeps the first of duplicated attributes. -/
inductive Node where
  | elem : String → List (String × String) → List Node → Node
  | text : String → Node
deriving Repr

set_option maxRecDepth 16384

/-- Python `str.lower()` on ASCII tag-type suffixes: lower-case each code
point. -/
def pyLower (s : String) : String := String.mk (s.data.map Char.toLower)

/-- Python `s.startswith(pre)`: code-point prefix test. -/
def pyStartsWith (s pre : String) : Bool := pre.data.isPrefixOf s.data

/-- First value bound to an attribute name, `tag.attrs.get(attrib)`. -/
def lookupAttr (attrs : List (String × String)) (k : String) : Option String :=
  (attrs.find? (fun kv => kv.1 == k)).map (fun kv => kv.2)

mutual

/-- All element descendants of a node, itself included, in document
(preorder) order, as (name, attrs, children) triples. -/
def Node.elems : Node → List (String × List (String × String) × List Node)
  | .text _ => []
  | .elem n a cs => (n, a, cs) :: elemsList cs

/-- All element descendants of a forest in document order. -/
def elemsList : List Node → List (String × List (String × String) × List Node)
  | [] => []
  | c :: cs => c.elems ++ elemsList cs

end

/-- BeautifulSoup `tag.select_one(sel)` for a bare tag-name selector: the
first element descendant (in document order, the tag itself excluded) whose
name is `sel`. -/
def select_one (sel : String) (children : List Node) :
    Option (String × List (String × String) × List Node) :=
  (elemsList children).find? (fun e => e.1 == sel)

/-- Embedding of `get_attrib(tag, selector, attrib)` from the source: when a
selector is given, resolve it with `select_one` first; read the attribute off
the resulting tag if it exists, otherwise `None`.  (A BeautifulSoup `Tag` is
always truthy, so the `if tag:` test only filters out `None`.) -/
def get_attrib (attrs : List (String × String)) (children : List Node)
    (selector : Option String) (attrib : String) : Option String :=
  match selector with
  | none => lookupAttr attrs attrib
  | some sel =>
    match select_one sel children with
    | some e => lookupAttr e.2.1 attrib
    | none => none

/-- Embedding of `remove_dot`: `if str: str = str[2:]` — a truthy (non-empty)
string loses its first two characters, with no check that they are `./`. -/
def remove_dot (s : Option String) : Option String :=
  match s with
  | none => none
  | some str => if str = "" then some str else some (str.drop 2)

/-- BeautifulSoup `tag.string`: the single string content of a tag — its text
when its only child is a text node, recursively its only child's `.string`
when the only child is an element, and `None` otherwise. -/
def Node.stringVal : Node → Option String
  | .text s => some s
  | .elem _ _ [c] => c.stringVal
  | .elem _ _ _ => none

mutual

/-- Plain-text rendering of a markup fragment (the model of
`Soup(s, "lxml").get_text()`): characters outside `<...>` tags. -/
def stripTags : List Char → List Char
  | [] => []
  | c :: cs => if c = '<' then dropTag cs else c :: stripTags cs

/-- Skip to the closing `>` of a tag, then resume `stripTags`. -/
def dropTag : List Char → List Char
  | [] => []
  | c :: cs => if c = '>' then stripTags cs else dropTag cs

end

/-- Plain-text rendering of a markup string. -/
def plain_text (s : String) : String := String.mk (stripTags s.data)

/-- Python `.replace("\n", " ")` — the pattern is a single code point, so
this is a per-character map. -/
def collapseNL (s : String) : String :=
  String.mk (s.data.map (fun c => if c = '\n' then ' ' else c))

/-- JSON values, the result of `json.loads`. -/
inductive Json where
  | null : Json
  | bool : Bool → Json
  | num : Int → Json
  | str : String → Json
  | arr : List Json → Json
  | obj : List (String × Json) → Json
deriving Repr

/-- Python truthiness of a JSON value (`if attribs["caption"]:`). -/
def Json.truthy : Json → Bool
  | .null => false
  | .bool b => b
  | .num n => n != 0
  | .str s => s != ""
  | .arr xs => !xs.isEmpty
  | .obj fs => !fs.isEmpty

/-- Lookup in a JSON object read as a Python dict: the last binding of a
duplicated key wins. -/
def jsonLookup (fields : List (String × Json)) (k : String) : Option Json :=
  (fields.reverse.find? (fun f => f.1 == k)).map (fun f => f.2)

/-- JSON whitespace skipping. -/
def jsonWs (cs : List Char) : List Char :=
  cs.dropWhile (fun c => c == ' ' || c == '\t' || c == '\n' || c == '\r')

/-- Decoding of a JSON string escape character. -/
def jsonEscChar (c : Char) : Option Char :=
  if c = '\"' then some '\"'
  else if c = '\\' then some '\\'
  else if c = '/' then some '/'
  else if c = 'n' then some '\n'
  else if c = 't' then some '\t'
  else if c = 'r' then some '\r'
  else if c = 'b' then some (Char.ofNat 8)
  else if c = 'f' then some (Char.ofNat 12)
  else none

/-- Parse the body of a JSON string after the opening quote, returning the
decoded characters and the rest of the input after the closing quote. -/
def jsonString : List Char → Option (List Char × List Char)
  | [] => none
  | c :: cs =>
    if c = '\"' then some ([], cs)
    else if c = '\\' then
      match cs with
      | [] => none
      | e :: cs2 =>
        match jsonEscChar e with
        | none => none
        | some d =>
          match jsonString cs2 with
          | none => none
          | some (s, rest) => some (d :: s, rest)
    else
      match jsonString cs with
      | none => none
      | some (s, rest) => some (c :: s, rest)

/-- Decimal digits to a natural number. -/
def digitsToNat (ds : List Char) : Nat :=
  ds.foldl (fun a c => a * 10 + (c.toNat - 48)) 0

mutual

/-- Fuel-indexed JSON value parser (the model of `json.loads`): parses one
JSON value and returns it with the unconsumed input. -/
def jsonVal : Nat → List Char → Option (Json × List Char)
  | 0, _ => none
  | fuel + 1, cs0 =>
    match jsonWs cs0 with
    | [] => none
    | c :: rest =>
      if c = '\"' then
        match jsonString rest with
        | none => none
        | some (s, r) => some (Json.str (String.mk s), r)
      else if c = 't' then
        if rest.take 3 = ['r', 'u', 'e'] then some (Json.bool true, rest.drop 3) else none
      else if c = 'f' then
        if rest.take 4 = ['a', 'l', 's', 'e'] then some (Json.bool false, rest.drop 4) else none
      else if c = 'n' then
        if rest.take 3 = ['u', 'l', 'l'] then some (Json.null, rest.drop 3) else none
      else if c = '[' then
        match jsonWs rest with
        | ']' :: r2 => some (Json.arr [], r2)
        | cs2 =>
          match jsonItems fuel cs2 with
          | none => none
          | some (xs, r2) => some (Json.arr xs, r2)
      else if c = '\x7b' then
        match jsonWs rest with
        | '\x7d' :: r2 => some (Json.obj [], r2)
        | cs2 =>
          match jsonMembers fuel cs2 with
          | none => none
          | some (ms, r2) => some (Json.obj ms, r2)
      else if c = '-' then
        match rest.takeWhile Char.isDigit with
        | [] => none
        | ds => some (Json.num (-(digitsToNat ds : Int)), rest.dropWhile Char.isDigit)
      else if c.isDigit then
        some (Json.num (digitsToNat ((c :: rest).takeWhile Char.isDigit)),
              (c :: rest).dropWhile Char.isDigit)
      else none

/-- Comma-separated JSON array items up to the closing bracket. -/
def jsonItems : Nat → List Char → Option (List Json × List Char)
  | 0, _ => none
  | fuel + 1, cs =>
    match jsonVal fuel cs with
    | none => none
    | some (v, r1) =>
      match jsonWs r1 with
      | ',' :: r2 =>
        match jsonItems fuel r2 with
        | none => none
        | some (xs, r3) => some (v :: xs, r3)
      | ']' :: r2 => some ([v], r2)
      | _ => none

/-- Comma-separated JSON object members up to the closing brace. -/
def jsonMembers : Nat → List Char → Option (List (String × Json) × List Char)
  | 0, _ => none
  | fuel + 1, cs =>
    match jsonWs cs with
    | c :: rest =>
      if c = '\"' then
        match jsonString rest with
        | none => none
        | some (k, r1) =>
          match jsonWs r1 with
          | ':' :: r2 =>
            match jsonVal fuel r2 with
            | none => none
            | some (v, r3) =>
              match jsonWs r3 with
              | ',' :: r4 =>
                match jsonMembers fuel r4 with
                | none => none
                | some (ms, r5) => some ((String.mk k, v) :: ms, r5)
              | '\x7d' :: r4 => some ([(String.mk k, v)], r4)
              | _ => none
          | _ => none
      else none
    | [] => none

end

/-- Model of `json.loads`: parse a complete JSON document, requiring the
whole input to be consumed (up to trailing whitespace). -/
def json_loads (s : String) : Option Json :=
  match jsonVal (s.length + 1) s.data with
  | some (j, r) => if jsonWs r = [] then some j else none
  | none => none

/-- One extracted image record, the `item_data` dict of the source.  `link`
distinguishes "key absent" (`none`) from "key present with value `None`"
(`some none`), since the source can store a `None` link.  `page_title` is
absent (`none`) until `output_csv` mutates the record.  `origWidth`,
`origHeight` stand for the `orig-width` / `orig-height` keys. -/
structure ImageRecord where
  filename : Option String
  position : String
  type : String
  width : Option String
  height : Option String
  origWidth : Option String
  origHeight : Option String
  mediatype : Option String
  from_template : Bool
  caption : Option String
  alt : Option String
  link : Option (Option String)
  from_commons : Bool
  page_title : Option String
deriving Repr, DecidableEq

/-- Does an element match the `soupsieve.closest` selector
`[typeof="mw:Transclusion"], [about]`? -/
def matchesTransclusion (attrs : List (String × String)) : Bool :=
  lookupAttr attrs "typeof" == some "mw:Transclusion" || (lookupAttr attrs "about").isSome

/-- Walk a chain of (name, attrs) pairs from an element up to the document
root and return the tag name of the first one matching the transclusion
selector — the model of `soupsieve.closest(..., tag).name`. -/
def closestName : List (String × List (String × String)) → Option String
  | [] => none
  | (n, a) :: rest => if matchesTransclusion a then some n else closestName rest

/-- The `from_template` computation:
`soupsieve.closest('[typeof="mw:Transclusion"], [about]', tag).name != "html"`.
When no ancestor-or-self matches, `closest` returns `None` and reading
`.name` raises `AttributeError`. -/
def fromTemplateStep (name : String) (attrs : List (String × String))
    (ancestors : List (String × List (String × String))) : Except String Bool :=
  match closestName ((name, attrs) :: ancestors) with
  | some n => Except.ok (n != "html")
  | none => Except.error "AttributeError: NoneType object has no attribute name"

/-- The `raise Exception(f"Unexpected tag: ...")` message. -/
def unexpectedTagMsg (name page : String) : String :=
  "Unexpected tag: " ++ name ++ " (page: " ++ page ++ ")"

/-- The caption computation of `get_image_data_from_html`, yielding the final
value of the optional `caption` key: for a `span`, the truthy `caption` field
of the JSON-decoded `data-mw` attribute (a missing field is an uncaught
`KeyError`); for a `figure` / `figure-inline`, the `.string` of the first
descendant `figcaption`; any other tag name raises.  A caption string found
is re-parsed as markup and its plain text taken, newlines becoming spaces. -/
def captionStep (name : String) (attrs : List (String × String))
    (children : List Node) (page : String) : Except String (Option String) :=
  if name = "span" then
    match get_attrib attrs children none "data-mw" with
    | none => Except.ok none
    | some s =>
      if s = "" then Except.ok none
      else
        match json_loads s with
        | none => Except.error "json.decoder.JSONDecodeError"
        | some (Json.obj fields) =>
          match jsonLookup fields "caption" with
          | none => Except.error "KeyError: caption"
          | some v =>
            if v.truthy then
              match v with
              | Json.str cap => Except.ok (some (collapseNL (plain_text cap)))
              | _ => Except.error "TypeError: caption is not a string"
            else Except.ok none
        | some _ => Except.error "TypeError: loaded JSON is not an object"
  else if name = "figure" ∨ name = "figure-inline" then
    match select_one "figcaption" children with
    | none => Except.ok none
    | some e =>
      match (Node.elem e.1 e.2.1 e.2.2).stringVal with
      | none => Except.ok none
      | some s =>
        if s = "" then Except.ok none
        else Except.ok (some (collapseNL (plain_text s)))
  else Except.error (unexpectedTagMsg name page)

/-- The `link` computation: strip the dot from the first anchor descendant's
`href` and store it under the `link` key only when it differs from
`filename`; `none` means the key is absent. -/
def computeLink (attrs : List (String × String)) (children : List Node) :
    Option (Option String) :=
  let link := remove_dot (get_attrib attrs children (some "a") "href")
  let filename := remove_dot (get_attrib attrs children (some "img") "resource")
  if link = filename then none else some link

/-- The commons CDN prefix tested by `from_commons`. -/
def commonsPrefix : String := "//upload.wikimedia.org/wikipedia/commons/"

/-- Extraction of one record from a matched image element, following the
body of the `for` loop of `get_image_data_from_html` in evaluation order:
the `typeof` lookup, then `from_template` (which can raise), then the
caption logic (which can raise), then the `src` lookup for `from_commons`
(`None.startswith` raises). -/
def extractOne (name : String) (attrs : List (String × String))
    (children : List Node) (ancestors : List (String × List (String × String)))
    (page : String) : Except String ImageRecord :=
  match lookupAttr attrs "typeof" with
  | none => Except.error "KeyError: typeof"
  | some typeofVal =>
  match fromTemplateStep name attrs ancestors with
  | Except.error e => Except.error e
  | Except.ok ft =>
  match captionStep name attrs children page with
  | Except.error e => Except.error e
  | Except.ok cap =>
  match get_attrib attrs children (some "img") "src" with
  | none => Except.error "AttributeError: NoneType object has no attribute startswith"
  | some src =>
  Except.ok {
    filename := remove_dot (get_attrib attrs children (some "img") "resource")
    position := if name = "figure" then "block" else "inline"
    type := if pyLower (typeofVal.drop 9) = "" then "image" else pyLower (typeofVal.drop 9)
    width := get_attrib attrs children (some "img") "width"
    height := get_attrib attrs children (some "img") "height"
    origWidth := get_attrib attrs children (some "img") "data-file-width"
    origHeight := get_attrib attrs children (some "img") "data-file-height"
    mediatype := get_attrib attrs children (some "img") "data-file-type"
    from_template := ft
    caption := cap
    alt := get_attrib attrs children (some "img") "alt"
    link := computeLink attrs children
    from_commons := pyStartsWith src commonsPrefix
    page_title := none }

/-- A matched image element together with its ancestor chain (nearest
ancestor first, the document root last). -/
structure ImgMatch where
  name : String
  attrs : List (String × String)
  children : List Node
  ancestors : List (String × List (String × String))

/-- Does an element match the image-marker selector
`[typeof="mw:Image"],[typeof^="mw:Image/"]`? -/
def isImageMarker (attrs : List (String × String)) : Bool :=
  match lookupAttr attrs "typeof" with
  | some t => t == "mw:Image" || pyStartsWith t "mw:Image/"
  | none => false

mutual

/-- Collect the image-marker elements of a node in document order, each with
its ancestor chain. -/
def findImages (anc : List (String × List (String × String))) : Node → List ImgMatch
  | .text _ => []
  | .elem n a cs =>
    (if isImageMarker a then [⟨n, a, cs, anc⟩] else []) ++ findImagesList ((n, a) :: anc) cs

/-- Collect the image-marker elements of a forest in document order. -/
def findImagesList (anc : List (String × List (String × String))) :
    List Node → List ImgMatch
  | [] => []
  | c :: cs => findImages anc c ++ findImagesList anc cs

end

/-- Embedding of `get_image_data_from_html`: extract a record from every
matched image element in document order; the first uncaught exception aborts
the whole extraction, discarding earlier records. -/
def get_image_data_from_html (doc : Node) (page : String) :
    Except String (List ImageRecord) :=
  (findImages [] doc).mapM (fun m => extractOne m.name m.attrs m.children m.ancestors page)

/-- The `--ignore-templates` filter of `main`:
`[item for item in page_data if not item["from_template"]]`. -/
def filterTemplates (page_data : List ImageRecord) : List ImageRecord :=
  page_data.filter (fun item => !item.from_template)

/-- Python dict insertion on an insertion-ordered association list: an
existing key keeps its position and gets the new value, a new key is
appended. -/
def dictInsert (m : List (String × List ImageRecord)) (k : String)
    (v : List ImageRecord) : List (String × List ImageRecord) :=
  if m.any (fun kv => kv.1 == k) then
    m.map (fun kv => if kv.1 == k then (k, v) else kv)
  else m ++ [(k, v)]

/-- The record-collecting loop of `main`, over per-page extraction results:
apply the optional template filter, and only insert pages whose (filtered)
record list is non-empty. -/
def mainLoop (ignoreTemplates : Bool)
    (pages : List (String × List ImageRecord)) : List (String × List ImageRecord) :=
  pages.foldl (fun data pr =>
    let page_data := if ignoreTemplates then filterTemplates pr.2 else pr.2
    if page_data.isEmpty then data else dictInsert data pr.1 page_data) []

/-- Python `str()` of a bool, as the csv module writes it. -/
def pyStr (b : Bool) : String := if b then "True" else "False"

/-- QUOTE_MINIMAL: a field is quoted when it contains the delimiter, the
quote character, or a line-terminator character. -/
def needsQuoting (f : List Char) : Bool :=
  f.any (fun c => c == ',' || c == '\"' || c == '\n' || c == '\r')

/-- Double every quote character of a field body. -/
def escapeQuotes : List Char → List Char
  | [] => []
  | c :: cs => if c = '\"' then '\"' :: '\"' :: escapeQuotes cs else c :: escapeQuotes cs

/-- Encode one CSV field with minimal quoting. -/
def encodeField (f : List Char) : List Char :=
  if needsQuoting f then '\"' :: (escapeQuotes f ++ ['\"']) else f

/-- Encode one CSV row (without line terminator).  A row consisting of a
single empty field is written as `""`, as the csv module does to keep it
distinguishable from an empty row. -/
def encodeRow : List (List Char) → List Char
  | [] => []
  | [f] => if f = [] then ['\"', '\"'] else encodeField f
  | f :: fs => encodeField f ++ ',' :: encodeRow fs

/-- One written CSV row: the encoded fields plus the `\r\n` terminator. -/
def writeRowStr (fields : List String) : String :=
  String.mk (encodeRow (fields.map String.data)) ++ "\r\n"

/-- Value written for an optional string field: absent keys and `None`
values both come out as the empty string. -/
def fieldOut : Option String → String
  | none => ""
  | some s => s

/-- Value written for the `link` key (which can be absent, `None`, or a
string). -/
def linkOut : Option (Option String) → String
  | none => ""
  | some none => ""
  | some (some s) => s

/-- The values of one record in the fixed `fieldnames` column order of
`output_csv`: page_title, filename, caption, alt, position, type, link,
width, height, orig-width, orig-height, mediatype, from_template,
from_commons. -/
def recordFields (r : ImageRecord) : List String :=
  [fieldOut r.page_title, fieldOut r.filename, fieldOut r.caption, fieldOut r.alt,
   r.position, r.type, linkOut r.link, fieldOut r.width, fieldOut r.height,
   fieldOut r.origWidth, fieldOut r.origHeight, fieldOut r.mediatype,
   pyStr r.from_template, pyStr r.from_commons]

/-- The display labels of the header row of `output_csv`. -/
def headerFields : List String :=
  ["Page name", "Image name", "Caption", "Alt text", "Inline/block",
   "Image format", "Link", "Thumbnail width", "Thumbnail height",
   "Original width", "Original height", "Media type", "From template?",
   "From commons?"]

/-- The mutation `image_data["page_title"] = page` performed by `output_csv`
on each record dict. -/
def setPageTitle (p : String) (r : ImageRecord) : ImageRecord :=
  { r with page_title := some p }

/-- Embedding of `output_csv`: returns the written rows (an optional header
row, then one row per record in mapping order) together with the post-state
of the mapping, since the loop writes the `page_title` key into each record
dict it renders. -/
def output_csv (data : List (String × List ImageRecord)) (add_header : Bool) :
    List String × List (String × List ImageRecord) :=
  ((if add_header then [writeRowStr headerFields] else []) ++
     data.flatMap (fun pr => pr.2.map (fun r => writeRowStr (recordFields (setPageTitle pr.1 r)))),
   data.map (fun pr => (pr.1, pr.2.map (setPageTitle pr.1))))

/-- Read the body of a quoted CSV field: a doubled quote is a literal quote,
a single quote ends the field. -/
def parseQuoted (acc : List Char) : List Char → Option (List Char × List Char)
  | [] => none
  | c :: cs =>
    if c = '\"' then
      match cs with
      | [] => some (acc, [])
      | c2 :: cs2 => if c2 = '\"' then parseQuoted (acc ++ ['\"']) cs2 else some (acc, cs)
    else parseQuoted (acc ++ [c]) cs

/-- Read an unquoted CSV field: everything up to the next delimiter. -/
def parseUnquoted : List Char → List Char × List Char
  | [] => ([], [])
  | c :: cs =>
    if c = ',' then ([], c :: cs)
    else
      let p := parseUnquoted cs
      (c :: p.1, p.2)

/-- Read one CSV field, quoted or not. -/
def parseField : List Char → Option (List Char × List Char)
  | [] => some ([], [])
  | c :: cs => if c = '\"' then parseQuoted [] cs else some (parseUnquoted (c :: cs))

/-- Read the comma-separated fields of a row (fuel-indexed). -/
def parseFields : Nat → List Char → Option (List (List Char))
  | 0, _ => none
  | fuel + 1, cs =>
    match parseField cs with
    | none => none
    | some (f, rest) =>
      match rest with
      | [] => some [f]
      | c :: cs2 =>
        if c = ',' then
          match parseFields fuel cs2 with
          | none => none
          | some fs => some (f :: fs)
        else none

/-- Strip one trailing `\r\n` line terminator. -/
def dropCRLF (cs : List Char) : List Char :=
  match cs.reverse with
  | c1 :: c2 :: rest => if c1 = '\n' ∧ c2 = '\r' then rest.reverse else cs
  | _ => cs

/-- A standard delimited-row parser: strip the terminator and split the row
into its unescaped fields. -/
def parseRowStr (s : String) : Option (List String) :=
  match parseFields (s.length + 1) (dropCRLF s.data) with
  | none => none
  | some fs => some (fs.map String.mk)

/-- A sample record with `from_template := true`, used to instantiate
universally quantified theorems. -/
def recT : ImageRecord :=
  { filename := some "A.jpg", position := "inline", type := "image",
    width := none, height := none, origWidth := none, origHeight := none,
    mediatype := none, from_template := true, caption := none, alt := none,
    link := none, from_commons := false, page_title := none }

/-- A sample record with `from_template := false`. -/
def recF : ImageRecord :=
  { recT with
    from_template := false
    filename := some "B.jpg"
    caption := some "a, \"big\"\ncat" }

/-- C9: the leading-path-marker stripper `remove_dot` removes the first two
characters of any non-None string unconditionally, never checking that they
are "./"; in particular a full URL not starting with "./" loses its first
two characters. -/
theorem remove_dot_unconditional :
    (∀ s : String, remove_dot (some s) = some (s.drop 2)) ∧
    remove_dot (some "https://example.org/Foo.jpg") =
      some "tps://example.org/Foo.jpg" := by
  refine ⟨fun s => ?_, by decide⟩
  unfold remove_dot
  by_cases h : s = ""
  · subst h; decide
  · simp [h]

/-- C6: the `--ignore-templates` filter yields exactly the subsequence of
records whose `from_template` is false — it is a sublist of the input (so
relative order is preserved), every record it keeps has `from_template =
false`, and it keeps every occurrence of every such record. -/
theorem filterTemplates_exact (l : List ImageRecord) :
    List.Sublist (filterTemplates l) l ∧
    (∀ r ∈ filterTemplates l, r.from_template = false) ∧
    (∀ r : ImageRecord, r.from_template = false →
      (filterTemplates l).count r = l.count r) := by
  refine ⟨List.filter_sublist l, ?_, ?_⟩
  · intro r hr
    have h := List.of_mem_filter hr
    simpa using h
  · intro r hr
    exact List.count_filter (by simp [hr])

/-- Witness for C6 at a concrete two-record list. -/
theorem filterTemplates_exact_witness :
    (filterTemplates [recT, recF]).count recF = [recT, recF].count recF :=
  (filterTemplates_exact [recT, recF]).2.2 recF (by decide)

/-- Every entry of `dictInsert m k v` is an entry of `m` or carries the
inserted value. -/
theorem mem_dictInsert {m : List (String × List ImageRecord)} {k : String}
    {v : List ImageRecord} {pr : String × List ImageRecord}
    (h : pr ∈ dictInsert m k v) : pr ∈ m ∨ pr.2 = v := by
  unfold dictInsert at h
  split at h
  · rcases List.mem_map.mp h with ⟨kv, hkv, heq⟩
    by_cases hk : kv.1 == k
    · right; rw [if_pos hk] at heq; rw [← heq]
    · left; rw [if_neg hk] at heq; rw [← heq]; exact hkv
  · rcases List.mem_append.mp h with h1 | h1
    · left; exact h1
    · right
      have : pr = (k, v) := by simpa using h1
      rw [this]

/-- Invariant of the record-collecting fold of `main`: starting from a state
whose entries all have non-empty record lists, every entry of the final
state has a non-empty record list. -/
theorem mainLoop_fold_nonempty (ignore : Bool) :
    ∀ (pages init : List (String × List ImageRecord)),
      (∀ pr ∈ init, pr.2 ≠ []) →
      ∀ pr ∈ pages.foldl (fun data pr =>
          let page_data := if ignore then filterTemplates pr.2 else pr.2
          if page_data.isEmpty then data else dictInsert data pr.1 page_data) init,
        pr.2 ≠ []
  | [], init, hinit => by simpa using hinit
  | p :: ps, init, hinit => by
    rw [List.foldl_cons]
    apply mainLoop_fold_nonempty ignore ps
    intro pr hpr
    dsimp only at hpr
    by_cases hE : (if ignore then filterTemplates p.2 else p.2).isEmpty
    · rw [if_pos hE] at hpr
      exact hinit pr hpr
    · rw [if_neg hE] at hpr
      rcases mem_dictInsert hpr with h1 | h1
      · exact hinit pr h1
      · intro hc
        apply hE
        rw [← h1, hc]
        rfl

/-- C7: a page whose record list is empty after filtering is never inserted
into the page-title-to-records mapping handed to the renderers: every entry
of the mapping built by the main loop has a non-empty record list. -/
theorem mainLoop_entries_nonempty (ignore : Bool)
    (pages : List (String × List ImageRecord)) :
    ∀ pr ∈ mainLoop ignore pages, pr.2 ≠ [] :=
  mainLoop_fold_nonempty ignore pages [] (by intro pr h; cases h)

/-- Witness for C7: a page with only template records disappears under
filtering while a real page keeps its non-empty list. -/
theorem mainLoop_entries_nonempty_witness :
    ("Q", [recF]).2 ≠ [] :=
  mainLoop_entries_nonempty true [("P", [recT]), ("Q", [recT, recF])]
    ("Q", [recF]) (by decide)

/-- C10: `output_csv` mutates its input mapping — the post-state maps every
page to its records with the `page_title` key written in, so after rendering
every record carries its page title; rendering is not a pure read. -/
theorem output_csv_mutates (data : List (String × List ImageRecord))
    (add_header : Bool) :
    (output_csv data add_header).2 =
      data.map (fun pr => (pr.1, pr.2.map (setPageTitle pr.1))) ∧
    ∀ pr ∈ (output_csv data add_header).2, ∀ r ∈ pr.2,
      r.page_title = some pr.1 := by
  refine ⟨rfl, ?_⟩
  intro pr hpr r hr
  rcases List.mem_map.mp hpr with ⟨pq, _, heq⟩
  rw [← heq] at hr ⊢
  rcases List.mem_map.mp hr with ⟨r0, _, heq2⟩
  rw [← heq2]
  rfl

/-- Witness for C10: a record that had no `page_title` key carries its page
title after rendering. -/
theorem output_csv_mutates_witness :
    (setPageTitle "P" recF).page_title = some "P" :=
  (output_csv_mutates [("P", [recF])] false).2 ("P", [setPageTitle "P" recF])
    (by decide) (setPageTitle "P" recF) (by decide)

/-- A nested image element, as Parsoid emits inside every image marker. -/
def demoImg : Node :=
  Node.elem "img"
    [("resource", "./C.jpg"),
     ("src", "//upload.wikimedia.org/wikipedia/commons/a/b/C.jpg")] []

/-- Attributes of an inline image marker that itself carries an `about`
attribute (as transcluded content does). -/
def demoAttrs : List (String × String) :=
  [("typeof", "mw:Image"), ("about", "#mwt1")]

/-- The record extracted from a `span` with `demoAttrs` and `demoImg`. -/
def demoRec : ImageRecord :=
  { filename := some "C.jpg", position := "inline", type := "image",
    width := none, height := none, origWidth := none, origHeight := none,
    mediatype := none, from_template := true, caption := none, alt := none,
    link := some none, from_commons := true, page_title := none }

/-- C3 (amended): when extraction succeeds, `from_template` is true exactly
when the tag name of the nearest ancestor-or-self carrying a transclusion
marker or an `about` attribute is not "html"; when no such ancestor-or-self
exists at all, extraction fails with an `AttributeError` (reading `.name`
off `None`) instead of producing `from_template = false`. -/
theorem from_template_provenance :
    ∀ (name : String) (attrs : List (String × String)) (children : List Node)
      (ancestors : List (String × List (String × String))) (page : String),
      (∀ r : ImageRecord,
        extractOne name attrs children ancestors page = Except.ok r →
        ∃ n, closestName ((name, attrs) :: ancestors) = some n ∧
          r.from_template = (n != "html")) ∧
      (closestName ((name, attrs) :: ancestors) = none →
        (lookupAttr attrs "typeof").isSome →
        extractOne name attrs children ancestors page =
          Except.error "AttributeError: NoneType object has no attribute name") := by
  intro name attrs children ancestors page
  constructor
  · intro r hr
    unfold extractOne at hr
    cases ht : lookupAttr attrs "typeof" with
    | none => rw [ht] at hr; exact Except.noConfusion hr
    | some typeofVal =>
      rw [ht] at hr
      unfold fromTemplateStep at hr
      cases hc : closestName ((name, attrs) :: ancestors) with
      | none => rw [hc] at hr; exact Except.noConfusion hr
      | some n =>
        rw [hc] at hr
        cases hcap : captionStep name attrs children page with
        | error e => rw [hcap] at hr; exact Except.noConfusion hr
        | ok cap =>
          rw [hcap] at hr
          cases hs : get_attrib attrs children (some "img") "src" with
          | none => rw [hs] at hr; exact Except.noConfusion hr
          | some src =>
            rw [hs] at hr
            refine ⟨n, rfl, ?_⟩
            have hrec := Except.ok.inj hr
            rw [← hrec]
  · intro hc ht
    rcases Option.isSome_iff_exists.mp ht with ⟨t, ht⟩
    unfold extractOne fromTemplateStep
    rw [ht, hc]

/-- Witness for C3: a span marker carrying its own `about` attribute has
`from_template = true` because the nearest match is the span, not "html". -/
theorem from_template_provenance_witness :
    ∃ n, closestName (("span", demoAttrs) :: []) = some n ∧
      demoRec.from_template = (n != "html") :=
  (from_template_provenance "span" demoAttrs [demoImg] [] "P").1 demoRec (by rfl)

/-- A document whose root carries no `about` attribute and which contains no
transclusion ancestor for the image marker. -/
def c3doc : Node :=
  Node.elem "html" []
    [Node.elem "body" [] [Node.elem "span" [("typeof", "mw:Image")] [demoImg]]]

/-- Counterexample for C3: with no matching ancestor-or-self at all, the
code does not produce `from_template = false` — `closest` returns `None`
and reading `.name` raises, so the whole extraction fails. -/
theorem no_transclusion_ancestor_fails :
    get_image_data_from_html c3doc "P" =
      Except.error "AttributeError: NoneType object has no attribute name" := rfl

/-- C4 (amended): when extraction succeeds, the `link` key is absent from
the record exactly when the dot-stripped href of the first anchor descendant
equals the record's filename; whenever it differs — including when there is
no anchor at all, in which case a `link` key holding `None` is stored — the
key is present with that stripped href as value. -/
theorem link_presence :
    ∀ (name : String) (attrs : List (String × String)) (children : List Node)
      (ancestors : List (String × List (String × String))) (page : String)
      (r : ImageRecord),
      extractOne name attrs children ancestors page = Except.ok r →
      ((r.link = none ↔
          remove_dot (get_attrib attrs children (some "a") "href") = r.filename) ∧
       (remove_dot (get_attrib attrs children (some "a") "href") ≠ r.filename →
          r.link = some (remove_dot (get_attrib attrs children (some "a") "href")))) := by
  intro name attrs children ancestors page r hr
  unfold extractOne at hr
  cases ht : lookupAttr attrs "typeof" with
  | none => rw [ht] at hr; exact Except.noConfusion hr
  | some typeofVal =>
    rw [ht] at hr
    cases hft : fromTemplateStep name attrs ancestors with
    | error e => rw [hft] at hr; exact Except.noConfusion hr
    | ok ft =>
      rw [hft] at hr
      cases hcap : captionStep name attrs children page with
      | error e => rw [hcap] at hr; exact Except.noConfusion hr
      | ok cap =>
        rw [hcap] at hr
        cases hs : get_attrib attrs children (some "img") "src" with
        | none => rw [hs] at hr; exact Except.noConfusion hr
        | some src =>
          rw [hs] at hr
          have hrec := Except.ok.inj hr
          rw [← hrec]
          unfold computeLink
          by_cases heq : remove_dot (get_attrib attrs children (some "a") "href") =
              remove_dot (get_attrib attrs children (some "img") "resource")
          · simp [heq]
          · simp [heq]

/-- Witness for C4: in `demoRec` the stripped href (`None`, no anchor)
differs from the filename, so the `link` key is present (holding `None`). -/
theorem link_presence_witness :
    demoRec.link = some (remove_dot (get_attrib demoAttrs [demoImg] (some "a") "href")) :=
  (link_presence "span" demoAttrs [demoImg] [] "P" demoRec (by rfl)).2 (by decide)

/-- A document whose root carries an `about` attribute (as Parsoid output
does), holding one inline image marker with no anchor element. -/
def c4doc : Node :=
  Node.elem "html" [("about", "#rev")]
    [Node.elem "body" [] [Node.elem "span" [("typeof", "mw:Image")] [demoImg]]]

/-- Counterexample for C4: with no anchor at all the stripped href does not
exist, yet the record still gets a `link` key (with value `None`) because
`None != filename`; the claim would make the key absent. -/
theorem link_key_present_without_href :
    (get_image_data_from_html c4doc "P").map (fun rs => rs.map (fun r => r.link)) =
      Except.ok [some none] ∧ some (none : Option String) ≠ none :=
  ⟨rfl, by decide⟩

/-- C5: extraction fails loudly, never skipping, exactly at markup-contract
violations: a matched image element whose tag is neither `span`, `figure`
nor `figure-inline` makes extraction raise the exception naming the
unexpected tag and the page title; and a matched element whose nested `img`
element or `src` attribute is absent makes the `from_commons` lookup raise
an unhandled `AttributeError` (`None.startswith`). -/
theorem contract_violation_errors :
    (∀ (name : String) (attrs : List (String × String)) (children : List Node)
       (ancestors : List (String × List (String × String))) (page t n : String),
      lookupAttr attrs "typeof" = some t →
      closestName ((name, attrs) :: ancestors) = some n →
      name ≠ "span" → name ≠ "figure" → name ≠ "figure-inline" →
      extractOne name attrs children ancestors page =
        Except.error (unexpectedTagMsg name page)) ∧
    (∀ (name : String) (attrs : List (String × String)) (children : List Node)
       (ancestors : List (String × List (String × String))) (page t n : String)
       (cap : Option String),
      lookupAttr attrs "typeof" = some t →
      closestName ((name, attrs) :: ancestors) = some n →
      captionStep name attrs children page = Except.ok cap →
      get_attrib attrs children (some "img") "src" = none →
      extractOne name attrs children ancestors page =
        Except.error "AttributeError: NoneType object has no attribute startswith") := by
  constructor
  · intro name attrs children ancestors page t n ht hc h1 h2 h3
    have hft : fromTemplateStep name attrs ancestors = Except.ok (n != "html") := by
      unfold fromTemplateStep
      rw [hc]
    have hcap : captionStep name attrs children page =
        Except.error (unexpectedTagMsg name page) := by
      unfold captionStep
      rw [if_neg h1, if_neg (not_or.mpr ⟨h2, h3⟩)]
    unfold extractOne
    rw [ht, hft, hcap]
  · intro name attrs children ancestors page t n cap ht hc hcap hsrc
    have hft : fromTemplateStep name attrs ancestors = Except.ok (n != "html") := by
      unfold fromTemplateStep
      rw [hc]
    unfold extractOne
    rw [ht, hft, hcap, hsrc]

/-- Witness for C5: a `div` image marker raises the unexpected-tag
exception with tag and page names, and a `figure` marker with no nested
`img` fails at the `src.startswith` lookup. -/
theorem contract_violation_errors_witness :
    extractOne "div" demoAttrs [] [] "Pg" =
      Except.error (unexpectedTagMsg "div" "Pg") ∧
    extractOne "figure" demoAttrs [] [] "Pg" =
      Except.error "AttributeError: NoneType object has no attribute startswith" :=
  ⟨contract_violation_errors.1 "div" demoAttrs [] [] "Pg" "mw:Image" "div"
      rfl rfl (by decide) (by decide) (by decide),
   contract_violation_errors.2 "figure" demoAttrs [] [] "Pg" "mw:Image" "figure"
      none rfl rfl rfl rfl⟩

/-- C1 (amended): for an inline `span` marker whose non-empty `data-mw`
attribute parses as a JSON object, the caption behaviour is: a present
non-empty (truthy) string `caption` field yields a caption equal to its
plain-text rendering with newlines replaced by spaces; a present falsy
`caption` field yields no caption; but a missing `caption` field is an
uncaught `KeyError` — extraction fails rather than producing a record
without a caption. -/
theorem span_caption_spec :
    ∀ (attrs : List (String × String)) (children : List Node) (page s : String)
      (fields : List (String × Json)),
      get_attrib attrs children none "data-mw" = some s → s ≠ "" →
      json_loads s = some (Json.obj fields) →
      ((jsonLookup fields "caption" = none →
          captionStep "span" attrs children page =
            Except.error "KeyError: caption") ∧
       (∀ v : Json, jsonLookup fields "caption" = some v → v.truthy = false →
          captionStep "span" attrs children page = Except.ok none) ∧
       (∀ cap : String, jsonLookup fields "caption" = some (Json.str cap) →
          cap ≠ "" →
          captionStep "span" attrs children page =
            Except.ok (some (collapseNL (plain_text cap))))) := by
  intro attrs children page s fields hdm hne hjson
  refine ⟨?_, ?_, ?_⟩
  · intro hnone
    simp [captionStep, hdm, hne, hjson, hnone]
  · intro v hv htruthy
    simp [captionStep, hdm, hne, hjson, hv, htruthy]
  · intro cap hv hcapne
    simp [captionStep, hdm, hne, hjson, hv, Json.truthy, hcapne]

/-- Witness for C1 at a concrete span element with a markup caption in its
`data-mw` attribute. -/
theorem span_caption_spec_witness :
    captionStep "span"
      [("typeof", "mw:Image"), ("data-mw", "\x7b\"caption\": \"A <i>cat</i>\"\x7d")]
      [] "P" = Except.ok (some "A cat") :=
  (span_caption_spec
      [("typeof", "mw:Image"), ("data-mw", "\x7b\"caption\": \"A <i>cat</i>\"\x7d")]
      [] "P" "\x7b\"caption\": \"A <i>cat</i>\"\x7d"
      [("caption", Json.str "A <i>cat</i>")] rfl (by decide) (by rfl)).2.2
    "A <i>cat</i>" rfl (by decide)

/-- A document with an inline span marker whose `data-mw` JSON object lacks
a `caption` field. -/
def c1doc : Node :=
  Node.elem "html" [("about", "#rev")]
    [Node.elem "body" []
      [Node.elem "span"
        [("typeof", "mw:Image"), ("data-mw", "\x7b\"alt\": \"x\"\x7d")]
        [demoImg]]]

/-- Counterexample for C1: when the `data-mw` JSON object has no `caption`
field, extraction does not produce a record without a caption — the
subscript `attribs["caption"]` raises `KeyError` and the whole extraction
fails. -/
theorem span_caption_missing_field_fails :
    get_image_data_from_html c1doc "P" = Except.error "KeyError: caption" := by rfl

/-- C2 (amended): for a `figure` / `figure-inline` marker, a caption is
extracted exactly when the first descendant `figcaption` exists and has a
non-empty single-string content (BeautifulSoup `.string`); the caption is
then that string's plain-text rendering with newlines collapsed to spaces.
A `figcaption` whose text contains embedded markup mixed with text has no
`.string`, so no caption is extracted — the caption is absent, not the
markup-stripped text. -/
theorem figure_caption_spec :
    ∀ (name : String) (attrs : List (String × String)) (children : List Node)
      (page : String),
      (name = "figure" ∨ name = "figure-inline") →
      ((select_one "figcaption" children = none →
          captionStep name attrs children page = Except.ok none) ∧
       (∀ e, select_one "figcaption" children = some e →
          (Node.elem e.1 e.2.1 e.2.2).stringVal = none →
          captionStep name attrs children page = Except.ok none) ∧
       (∀ e, select_one "figcaption" children = some e →
          (Node.elem e.1 e.2.1 e.2.2).stringVal = some "" →
          captionStep name attrs children page = Except.ok none) ∧
       (∀ e s, select_one "figcaption" children = some e →
          (Node.elem e.1 e.2.1 e.2.2).stringVal = some s → s ≠ "" →
          captionStep name attrs children page =
            Except.ok (some (collapseNL (plain_text s))))) := by
  intro name attrs children page hname
  rcases hname with h | h <;> subst h
  · refine ⟨?_, ?_, ?_, ?_⟩
    · intro hsel
      simp [captionStep, hsel]
    · intro e hsel hstr
      simp [captionStep, hsel, hstr]
    · intro e hsel hstr
      simp [captionStep, hsel, hstr]
    · intro e s hsel hstr hne2
      simp [captionStep, hsel, hstr, hne2]
  · refine ⟨?_, ?_, ?_, ?_⟩
    · intro hsel
      simp [captionStep, hsel]
    · intro e hsel hstr
      simp [captionStep, hsel, hstr]
    · intro e hsel hstr
      simp [captionStep, hsel, hstr]
    · intro e s hsel hstr hne2
      simp [captionStep, hsel, hstr, hne2]

/-- Children of a demo figure: the image and a single-text figcaption. -/
def figDemo : List Node := [demoImg, Node.elem "figcaption" [] [Node.text "A cat."]]

/-- Witness for C2 at a figure whose figcaption holds the single text
"A cat.". -/
theorem figure_caption_spec_witness :
    captionStep "figure" [] figDemo "P" = Except.ok (some "A cat.") :=
  (figure_caption_spec "figure" [] figDemo "P" (Or.inl rfl)).2.2.2
    ("figcaption", [], [Node.text "A cat."]) "A cat." rfl rfl (by decide)

/-- A document whose figure marker has a figcaption with mixed content:
text, an embedded element, then text. -/
def c2doc : Node :=
  Node.elem "html" [("about", "#rev")]
    [Node.elem "body" []
      [Node.elem "figure" [("typeof", "mw:Image/Thumb")]
        [demoImg,
         Node.elem "figcaption" []
           [Node.text "A ", Node.elem "b" [] [Node.text "cat"], Node.text "."]]]]

/-- Counterexample for C2: a figcaption containing text with embedded markup
has no single-string content, so the extracted record has no caption at all,
not the markup-stripped text "A cat." the claim promises. -/
theorem figcaption_markup_no_caption :
    (get_image_data_from_html c2doc "P").map (fun rs => rs.map (fun r => r.caption)) =
      Except.ok [none] ∧ (none : Option String) ≠ some "A cat." :=
  ⟨by rfl, by decide⟩

/-- Reading back an escaped field body: `parseQuoted` undoes `escapeQuotes`
up to the closing quote, provided the input after the closing quote is empty
or a delimiter follows. -/
theorem parseQuoted_escapeQuotes :
    ∀ (s acc rest : List Char), rest = [] ∨ (∃ t, rest = ',' :: t) →
      parseQuoted acc (escapeQuotes s ++ '\"' :: rest) = some (acc ++ s, rest)
  | [], acc, rest, hrest => by
    rcases hrest with rfl | ⟨t, rfl⟩
    · simp [escapeQuotes, parseQuoted]
    · simp [escapeQuotes, parseQuoted]
  | c :: s2, acc, rest, hrest => by
    by_cases hc : c = '\"'
    · subst hc
      have ih := parseQuoted_escapeQuotes s2 (acc ++ ['\"']) rest hrest
      simp [escapeQuotes, parseQuoted, ih]
    · have ih := parseQuoted_escapeQuotes s2 (acc ++ [c]) rest hrest
      simp only [escapeQuotes, if_neg hc, List.cons_append]
      conv_lhs => rw [parseQuoted.eq_def]
      simp [hc, ih]

/-- `parseUnquoted` reads a comma-free field up to the next delimiter. -/
theorem parseUnquoted_clean :
    ∀ (f rest : List Char), (∀ c ∈ f, c ≠ ',') →
      (rest = [] ∨ ∃ t, rest = ',' :: t) →
      parseUnquoted (f ++ rest) = (f, rest)
  | [], rest, _, hrest => by
    rcases hrest with rfl | ⟨t, rfl⟩
    · rfl
    · simp [parseUnquoted]
  | c :: f2, rest, hf, hrest => by
    have hc : c ≠ ',' := hf c (by simp)
    have ih := parseUnquoted_clean f2 rest (fun d hd => hf d (by simp [hd])) hrest
    simp [parseUnquoted, hc, ih]

/-- A field that needs no quoting contains neither delimiter nor quote. -/
theorem not_needsQuoting {f : List Char} (h : needsQuoting f = false) :
    ∀ c ∈ f, c ≠ ',' ∧ c ≠ '\"' := by
  intro c hc
  unfold needsQuoting at h
  rw [List.any_eq_false] at h
  have hcc := h c hc
  constructor <;> intro he <;> subst he <;> simp at hcc

/-- One encoded field parses back to itself when followed by the end of the
row or a delimiter. -/
theorem parseField_encodeField :
    ∀ (f rest : List Char), (rest = [] ∨ ∃ t, rest = ',' :: t) →
      parseField (encodeField f ++ rest) = some (f, rest) := by
  intro f rest hrest
  unfold encodeField
  by_cases hq : needsQuoting f
  · rw [if_pos hq]
    have hsh : ('\"' :: (escapeQuotes f ++ ['\"'])) ++ rest
        = '\"' :: (escapeQuotes f ++ '\"' :: rest) := by simp
    rw [hsh]
    simp [parseField, parseQuoted_escapeQuotes f [] rest hrest]
  · rw [if_neg hq]
    have hcs := not_needsQuoting (Bool.eq_false_iff.mpr hq)
    cases f with
    | nil =>
      rcases hrest with rfl | ⟨t, rfl⟩
      · rfl
      · simp [parseField, parseUnquoted]
    | cons c f2 =>
      have hcq : c ≠ '\"' := (hcs c (by simp)).2
      have hcomma : ∀ d ∈ c :: f2, d ≠ ',' := fun d hd => (hcs d hd).1
      have hun := parseUnquoted_clean (c :: f2) rest hcomma hrest
      simp only [List.cons_append] at hun ⊢
      simp [parseField, hcq, hun]

/-- A whole encoded row parses back to its fields, for any fuel at least
the number of fields. -/
theorem parseFields_encodeRow :
    ∀ (l : List (List Char)) (fuel : Nat), l ≠ [] → l.length ≤ fuel →
      parseFields fuel (encodeRow l) = some l
  | [], _, h, _ => absurd rfl h
  | [_], 0, _, hf => by simp at hf
  | _ :: _ :: _, 0, _, hf => by simp at hf
  | [f], fuel + 1, _, _ => by
    by_cases hf0 : f = []
    · subst hf0
      rfl
    · have hp := parseField_encodeField f [] (Or.inl rfl)
      rw [List.append_nil] at hp
      simp [encodeRow, hf0, parseFields, hp]
  | f :: g :: gs, fuel + 1, _, hf => by
    have ih := parseFields_encodeRow (g :: gs) fuel (by simp) (by simpa using hf)
    have hp := parseField_encodeField f (',' :: encodeRow (g :: gs)) (Or.inr ⟨_, rfl⟩)
    simp [encodeRow, parseFields, hp, ih]

/-- An encoded row is at least one character per field beyond the first. -/
theorem length_le_encodeRow :
    ∀ l : List (List Char), l.length ≤ (encodeRow l).length + 1
  | [] => by simp
  | [f] => by simp
  | f :: g :: gs => by
    have ih := length_le_encodeRow (g :: gs)
    simp only [encodeRow, List.length_append, List.length_cons] at ih ⊢
    omega

/-- Stripping the terminator just written recovers the encoded row. -/
theorem dropCRLF_append (l : List Char) : dropCRLF (l ++ ['\r', '\n']) = l := by
  unfold dropCRLF
  have h : (l ++ ['\r', '\n']).reverse = '\n' :: '\r' :: l.reverse := by simp
  rw [h]
  simp

/-- A written CSV row parses back to exactly its field list. -/
theorem parseRowStr_writeRowStr (fields : List String) (h : fields ≠ []) :
    parseRowStr (writeRowStr fields) = some fields := by
  unfold parseRowStr writeRowStr
  have hdata : (String.mk (encodeRow (fields.map String.data)) ++ "\r\n").data
      = encodeRow (fields.map String.data) ++ ['\r', '\n'] := by
    rw [String.data_append]
  rw [hdata, dropCRLF_append]
  have hne : fields.map String.data ≠ [] := by
    intro hc
    apply h
    simpa using hc
  have hlen : (fields.map String.data).length ≤
      (String.mk (encodeRow (fields.map String.data)) ++ "\r\n").length + 1 := by
    have h1 := length_le_encodeRow (fields.map String.data)
    have h2 : (String.mk (encodeRow (fields.map String.data)) ++ "\r\n").length
        = (encodeRow (fields.map String.data)).length + 2 := by
      have h3 : (String.mk (encodeRow (fields.map String.data)) ++ "\r\n").length
          = (String.mk (encodeRow (fields.map String.data)) ++ "\r\n").data.length := rfl
      rw [h3, String.data_append]
      simp
    omega
  rw [parseFields_encodeRow _ _ hne hlen]
  simp only [List.map_map]
  exact congrArg some (List.map_id'' (fun _ => rfl) fields)

/-- C8: parsing any row of the headless tabular output with the standard
delimited-row parser reconstructs exactly the field values of its source
record, in the fixed column order (page_title, filename, caption, alt,
position, type, link, width, height, orig-width, orig-height, mediatype,
from_template, from_commons), with absent optional fields appearing as
empty strings (as `recordFields` renders them). -/
theorem csv_roundtrip :
    ∀ (data : List (String × List ImageRecord)) (row : String),
      row ∈ (output_csv data false).1 →
      ∃ p rs r, (p, rs) ∈ data ∧ r ∈ rs ∧
        parseRowStr row = some (recordFields (setPageTitle p r)) := by
  intro data row hrow
  simp only [output_csv, Bool.false_eq_true, if_false, List.nil_append] at hrow
  rcases List.mem_flatMap.mp hrow with ⟨pr, hpr, hrowin⟩
  rcases List.mem_map.mp hrowin with ⟨r, hrin, hreq⟩
  refine ⟨pr.1, pr.2, r, hpr, hrin, ?_⟩
  rw [← hreq]
  exact parseRowStr_writeRowStr _ (by simp [recordFields])

/-- Witness for C8 at a one-page, one-record mapping whose record has a
caption containing the delimiter, quotes and a newline. -/
theorem csv_roundtrip_witness :
    ∃ p rs r, (p, rs) ∈ [("P", [recF])] ∧ r ∈ rs ∧
      parseRowStr (writeRowStr (recordFields (setPageTitle "P" recF))) =
        some (recordFields (setPageTitle p r)) :=
  csv_roundtrip [("P", [recF])]
    (writeRowStr (recordFields (setPageTitle "P" recF)))
    (List.mem_singleton.mpr rfl)
